import Mathlib

/-!
# CORE Flasher — verification of the spec against the code

The repository ships the CORE Flasher frontend (`src/core-flasher/src/app.js`)
but the Rust backend it invokes (`src-tauri/src/drives.rs`, `flasher.rs`,
`lib.rs`, listed in the README architecture section) is absent from the source
tree.  Frontend behaviour is embedded directly from `app.js`; the backend
components (DeviceCatalog, FlashEngine, VerifyEngine, HashComputer) are
modelled from the specification, as flagged on each definition.
-/

namespace CoreFlasher

/-! ## Frontend embedding (src/core-flasher/src/app.js) -/

/-- The image descriptor returned by the `select_image` backend command and
stored in `selectedImage`; fields are the ones `app.js` reads
(`name`, `size_human`, `format`, `path`). -/
structure ImageInfo where
  name : String
  size_human : String
  format : String
  path : String
deriving DecidableEq, Repr

/-- A drive descriptor returned by the `list_drives` backend command; fields are
the ones `app.js` reads (`name`, `device`, `size_human`). -/
structure DriveInfo where
  name : String
  device : String
  size_human : String
deriving DecidableEq, Repr

/-- An argument value passed to a Tauri `invoke` call. -/
inductive ArgVal where
  | str (v : String)
  | bool (v : Bool)
deriving DecidableEq, Repr

/-- One Tauri `invoke(cmd, args)` call issued by the frontend. -/
structure InvokeCall where
  cmd : String
  args : List (String × ArgVal)
deriving DecidableEq, Repr

/-- The frontend state touched by the `app.js` functions under scrutiny:
the two selection variables, the checkbox, and the DOM pieces written by
`loadImage`, `refreshDrives`, `startFlash`, `resetFlashUI` and the
`flash-progress` listener. -/
structure UIState where
  selectedImage : Option ImageInfo
  selectedDrive : Option DriveInfo
  verifyChecked : Bool
  btnNext1Disabled : Bool
  btnNext2Disabled : Bool
  imageNameText : String
  imageSizeText : String
  imageFormatText : String
  imageInfoVisible : Bool
  hashResultText : String
  driveListHtml : String
  warningBoxVisible : Bool
  flashButtonsVisible : Bool
  cancelBtnVisible : Bool
  progressVisible : Bool
  doneMessageVisible : Bool
  progressPercentText : String
  progressPhaseText : String
  progressSpeedText : String
  progressEtaText : String
deriving DecidableEq, Repr

/-- `loadImage(path)` from `app.js` lines 52–64.  The `invoke('select_image')`
result is passed in as `result` (the Rust command itself is external to the
frontend).  On success the image info is stored and displayed and the Next
button is enabled; on failure only an alert is raised (the returned list of
alert strings) and no state is touched. -/
def loadImage (s : UIState) (result : Except String ImageInfo) :
    UIState × List String :=
  match result with
  | .ok img =>
      ({ s with
          selectedImage := some img
          imageNameText := img.name
          imageSizeText := img.size_human
          imageFormatText := img.format
          imageInfoVisible := true
          hashResultText := ""
          btnNext1Disabled := false }, [])
  | .error e => (s, ["Error: " ++ e])

/-- The drive-list markup states produced by `refreshDrives`. -/
inductive DriveListHtml where
  | scanning
  | noDrives
  | rendered (drives : List DriveInfo)
  | errorHtml (e : String)
deriving DecidableEq, Repr

/-- Render the drive-list region to a marker string (the embedding keeps the
shape of the innerHTML assignments in `refreshDrives`, not the markup). -/
def DriveListHtml.toText : DriveListHtml → String
  | .scanning => "Scanning for USB drives..."
  | .noDrives => "No USB drives found. Insert a USB drive and click Refresh."
  | .rendered ds => "drive-items:" ++ String.intercalate "," (ds.map (·.device))
  | .errorHtml e => "Error: " ++ e

/-- `refreshDrives()` from `app.js` lines 78–109.  Before the backend call the
selection is cleared, the Next button disabled and the warning hidden; the
`invoke('list_drives')` outcome is passed in as `result`.  On failure the list
region shows the error; no previously selected drive survives. -/
def refreshDrives (s : UIState) (result : Except String (List DriveInfo)) :
    UIState :=
  let s0 := { s with
      driveListHtml := DriveListHtml.scanning.toText
      selectedDrive := none
      btnNext2Disabled := true
      warningBoxVisible := false }
  match result with
  | .ok drives =>
      if drives.isEmpty then
        { s0 with driveListHtml := DriveListHtml.noDrives.toText }
      else
        { s0 with driveListHtml := (DriveListHtml.rendered drives).toText }
  | .error e => { s0 with driveListHtml := (DriveListHtml.errorHtml e).toText }

/-- `selectDrive(drive, el)` from `app.js` lines 111–117. -/
def selectDrive (s : UIState) (drive : DriveInfo) : UIState :=
  { s with
      selectedDrive := some drive
      warningBoxVisible := true
      btnNext2Disabled := false }

/-- `startFlash()` from `app.js` lines 126–146.  `confirmOk` is the user's
answer to the destructive-action `confirm` dialog.  Returns the new state and
the list of `invoke` calls issued.  With no image or no drive selected the
function returns before the dialog; with the dialog declined it returns before
any UI change or invocation. -/
def startFlash (s : UIState) (confirmOk : Bool) : UIState × List InvokeCall :=
  match s.selectedImage, s.selectedDrive with
  | some img, some drv =>
      if confirmOk then
        ({ s with
            flashButtonsVisible := false
            cancelBtnVisible := true
            progressVisible := true },
         [{ cmd := "flash_image"
            args := [("imagePath", .str img.path),
                     ("device", .str drv.device),
                     ("verify", .bool s.verifyChecked)] }])
      else (s, [])
  | _, _ => (s, [])

/-- `cancelFlash()` from `app.js` lines 148–152: the frontend invokes
`cancel_flash` with no arguments at all — there is no job id in the call. -/
def cancelFlashInvoke : InvokeCall :=
  { cmd := "cancel_flash", args := [] }

/-- `resetFlashUI()` from `app.js` lines 187–192. -/
def resetFlashUI (s : UIState) : UIState :=
  { s with
      flashButtonsVisible := true
      cancelBtnVisible := false
      progressVisible := false
      doneMessageVisible := false }

/-- The `flash-progress` event payload.  The fields `phase`, `percent`,
`message`, `speed_mbps` and `eta_seconds` are exactly the properties the
listener in `app.js` lines 155–185 reads off `event.payload`; `bytes_done` and
`bytes_total` are carried per the specification's ProgressEvent field list
(the Rust emitter is missing from the source tree and the listener does not
read them).  Note the speed field consumed by the code is `speed_mbps`
(megabytes per second), not `speed_bytes_per_sec`. -/
structure ProgressPayload where
  phase : String
  bytes_done : Nat
  bytes_total : Nat
  percent : ℚ
  speed_mbps : ℚ
  eta_seconds : Nat
  message : String

/-- The field names of `ProgressPayload`, in declaration order. -/
def progressPayloadFields : List String :=
  ["phase", "bytes_done", "bytes_total", "percent", "speed_mbps",
   "eta_seconds", "message"]

/-- `Math.round(p.percent)` rendered as the percent label. -/
def percentText (q : ℚ) : String := toString (round q) ++ "%"

/-- `p.speed_mbps.toFixed(1) + ' MB/s'`; the embedding keeps the value, not
the one-decimal formatting. -/
def speedText (q : ℚ) : String := toString q ++ " MB/s"

/-- The ETA label built from `eta_seconds` (`min = floor(eta/60)`,
`sec = eta % 60`). -/
def etaText (eta : Nat) : String :=
  "ETA: " ++ toString (eta / 60) ++ "m " ++ toString (eta % 60) ++ "s"

/-- The `listen('flash-progress')` callback from `app.js` lines 155–185.
Returns the updated state and any alerts raised.  Speed and ETA labels are
written only when `phase` is `"writing"` or `"verifying"` (ETA only when
positive); `"done"` hides the cancel button and shows the done message;
`"error"` alerts and resets the flash UI. -/
def flashProgressHandler (s : UIState) (p : ProgressPayload) :
    UIState × List String :=
  let s := { s with
      progressPercentText := percentText p.percent
      progressPhaseText := p.message }
  let s :=
    if p.phase = "writing" ∨ p.phase = "verifying" then
      let s := { s with progressSpeedText := speedText p.speed_mbps }
      if p.eta_seconds > 0 then { s with progressEtaText := etaText p.eta_seconds }
      else s
    else s
  let s :=
    if p.phase = "done" then
      { s with cancelBtnVisible := false, doneMessageVisible := true }
    else s
  if p.phase = "error" then
    (resetFlashUI s, ["Error: " ++ p.message])
  else (s, [])

/-! ## Backend model (drives.rs / flasher.rs are absent from the source tree) -/

/-- Modelled from the spec: the `Device` descriptor produced by DeviceCatalog
(`drives.rs` is missing from the source tree); fields per §3 of the spec. -/
structure Device where
  identifier : String
  display_name : String
  capacity_bytes : Nat
  is_removable : Bool
  is_system : Bool
deriving DecidableEq, Repr

/-- Modelled from the spec: the DeviceCatalog safety filter — a device may be
surfaced only if it is removable and not a system/boot disk. -/
def deviceSafe (d : Device) : Bool :=
  d.is_removable && !d.is_system

/-- Modelled from the spec: `list_devices()` (`drives.rs` is missing from the
source tree).  `raw` is the OS-native enumeration; the result is the raw list
with the safety filter applied.  The function takes no flag, override or
configuration input of any kind. -/
def list_devices (raw : List Device) : List Device :=
  raw.filter deviceSafe

/-- Modelled from the spec: the enumeration entry point including its failure
mode (`drives.rs` is missing from the source tree).  `probe` is `none` when the
OS-native enumeration itself fails (permission error, tooling unavailable);
the result is then an empty sequence plus a descriptive error, never partial
or stale data. -/
def list_drives (probe : Option (List Device)) : List Device × Option String :=
  match probe with
  | some raw => (list_devices raw, none)
  | none => ([], some "device enumeration failed: permission error or tooling unavailable")

/-- The FlashEngine state machine states (spec §4.4). -/
inductive FlashState where
  | Idle
  | Preparing
  | Writing
  | Verifying
  | Done
  | Error (msg : String)
  | Cancelled
deriving DecidableEq, Repr

/-- Write the chunk `c` onto device contents `dev` at byte offset `off`
(raw sequential write: bytes outside the written range are untouched). -/
def writeAt (dev : List Nat) (off : Nat) (c : List Nat) : List Nat :=
  dev.take off ++ c ++ dev.drop (off + c.length)

/-- Modelled from the spec: the Writing phase of FlashEngine (`flasher.rs` is
missing from the source tree), spec §4.4 step 2.  Starting at offset `written`,
repeatedly take the next chunk of at most `n` bytes of `image`, write it to the
device, and after each chunk — while bytes remain — poll the cooperative
cancellation flag (`cancel i` is the flag's value at the i-th boundary check);
if it is set, stop with no further writes.  Returns
`(cancelled?, bytes_written, device contents)`.  `fuel` bounds the number of
iterations so the recursion is structural; every iteration writes at least one
byte, so `fuel = image.length` never runs out. -/
def writeLoop (fuel : Nat) (n : Nat) (cancel : Nat → Bool) (image : List Nat)
    (dev : List Nat) (written : Nat) (i : Nat) : Bool × Nat × List Nat :=
  match fuel with
  | 0 => (false, written, dev)
  | fuel + 1 =>
      if n = 0 ∨ image.length ≤ written then (false, written, dev)
      else if written + ((image.drop written).take n).length < image.length ∧
          cancel i then
        (true, written + ((image.drop written).take n).length,
         writeAt dev written ((image.drop written).take n))
      else
        writeLoop fuel n cancel image
          (writeAt dev written ((image.drop written).take n))
          (written + ((image.drop written).take n).length) (i + 1)

/-- The inputs of one flash run: the image bytes, the chunk size, the verify
flag, the target device descriptor, whether the device is still present in a
fresh enumeration when flashing begins, the device's prior contents, and the
cancellation flag as observed at each chunk-boundary check. -/
structure FlashInput where
  image : List Nat
  chunkSize : Nat
  verify : Bool
  device : Device
  present : Bool
  dev0 : List Nat
  cancel : Nat → Bool

/-- The outcome of one flash run. -/
structure FlashResult where
  state : FlashState
  bytes_written : Nat
  dev : List Nat

/-- The result of a byte-for-byte verification (spec §4.5). -/
inductive VerifyResult where
  | Match
  | MismatchAt (offset : Nat)
deriving DecidableEq, Repr

/-- Offset of the first byte at which the two lists differ (`none` when the
first list is exhausted without a difference); a missing byte on the right
counts as a difference. -/
def firstMismatch : List Nat → List Nat → Option Nat
  | [], _ => none
  | _ :: _, [] => some 0
  | a :: as, b :: bs =>
      if a = b then (firstMismatch as bs).map (· + 1) else some 0

/-- Modelled from the spec: VerifyEngine (`flasher.rs` is missing from the
source tree), spec §4.5 — read exactly `image.length` bytes from device
offset 0 and compare byte-for-byte against a fresh pass over the image,
stopping at the first mismatching offset. -/
def verifyBytes (image dev : List Nat) : VerifyResult :=
  match firstMismatch image (dev.take image.length) with
  | none => .Match
  | some k => .MismatchAt k

/-- Modelled from the spec: one full FlashEngine run (`flasher.rs` is missing
from the source tree), spec §4.4.  Preparing re-confirms the safety filter and
device presence, failing with `DeviceNoLongerValid` before any byte is
written; Writing streams the image in chunks with cooperative cancellation;
Verifying (when requested) compares the device against the image and reaches
`Done` exactly on a full match. -/
def flashRun (inp : FlashInput) : FlashResult :=
  if inp.present && deviceSafe inp.device then
    match writeLoop inp.image.length inp.chunkSize inp.cancel inp.image
        inp.dev0 0 0 with
    | (true, written, dev) =>
        { state := .Cancelled, bytes_written := written, dev := dev }
    | (false, written, dev) =>
        if inp.verify then
          match verifyBytes inp.image dev with
          | .Match => { state := .Done, bytes_written := written, dev := dev }
          | .MismatchAt k =>
              { state := .Error ("verification mismatch at offset " ++ toString k),
                bytes_written := written, dev := dev }
        else
          { state := .Done, bytes_written := written, dev := dev }
  else
    { state := .Error "DeviceNoLongerValid", bytes_written := 0, dev := inp.dev0 }

/-- Is a job state one of the active (non-terminal, non-idle) phases? -/
def FlashState.isActive : FlashState → Bool
  | .Preparing => true
  | .Writing => true
  | .Verifying => true
  | _ => false

/-- One registered flash job: its id, its target device identifier and its
current state. -/
structure JobRec where
  jobId : Nat
  deviceId : String
  state : FlashState
deriving Repr

/-- The FlashEngine's job registry. -/
structure Engine where
  jobs : List JobRec
  nextId : Nat

/-- Is some job in the registry active against the given device? -/
def deviceBusy (e : Engine) (devId : String) : Bool :=
  e.jobs.any fun j => j.deviceId = devId && j.state.isActive

/-- Modelled from the spec: `start_flash` admission control (`flasher.rs` /
`lib.rs` are missing from the source tree) — at most one active FlashJob per
device; a second start against a busy device is rejected with an error and no
job is created.  On success the new job enters `Preparing`. -/
def start_flash (e : Engine) (devId : String) : Except String (Engine × Nat) :=
  if deviceBusy e devId then
    .error "a flash job is already active for this device"
  else
    .ok ({ jobs := { jobId := e.nextId, deviceId := devId,
                     state := .Preparing } :: e.jobs,
           nextId := e.nextId + 1 }, e.nextId)

/-! ## HashComputer (spec §4.3; `flasher.rs` is missing from the source tree)

The digest is computed by streaming the content in fixed-size chunks through a
byte-driven incremental accumulator; MD5 and SHA-256 are implemented in full
over `Nat` words reduced modulo `2^32`. -/

/-- Split a byte list into consecutive chunks of `n` bytes (the last chunk may
be shorter); empty for `n = 0`. -/
def chunksOf (n : Nat) (l : List Nat) : List (List Nat) :=
  if h : n = 0 ∨ l = [] then []
  else l.take n :: chunksOf n (l.drop n)
termination_by l.length
decreasing_by
  push_neg at h
  have h1 : 0 < n := Nat.pos_of_ne_zero h.1
  have h2 : 0 < l.length := List.length_pos.mpr h.2
  simp [List.length_drop]
  omega

/-- 32-bit truncation. -/
def w32 (x : Nat) : Nat := x % 2 ^ 32

/-- 32-bit addition. -/
def add32 (a b : Nat) : Nat := (a + b) % 2 ^ 32

/-- 32-bit left rotation. -/
def rotl32 (x n : Nat) : Nat :=
  ((x <<< n) ||| (x >>> (32 - n))) % 2 ^ 32

/-- 32-bit right rotation. -/
def rotr32 (x n : Nat) : Nat :=
  ((x >>> n) ||| (x <<< (32 - n))) % 2 ^ 32

/-- 32-bit complement. -/
def not32 (x : Nat) : Nat := x ^^^ 0xffffffff

/-- Four little-endian bytes to a 32-bit word. -/
def wordLE (bs : List Nat) : Nat :=
  bs.getD 0 0 + (bs.getD 1 0) * 2 ^ 8 + (bs.getD 2 0) * 2 ^ 16 + (bs.getD 3 0) * 2 ^ 24

/-- Four big-endian bytes to a 32-bit word. -/
def wordBE (bs : List Nat) : Nat :=
  (bs.getD 0 0) * 2 ^ 24 + (bs.getD 1 0) * 2 ^ 16 + (bs.getD 2 0) * 2 ^ 8 + bs.getD 3 0

/-- A 32-bit word to four little-endian bytes. -/
def bytesLE (x : Nat) : List Nat :=
  [x % 256, x / 2 ^ 8 % 256, x / 2 ^ 16 % 256, x / 2 ^ 24 % 256]

/-- A 32-bit word to four big-endian bytes. -/
def bytesBE (x : Nat) : List Nat :=
  [x / 2 ^ 24 % 256, x / 2 ^ 16 % 256, x / 2 ^ 8 % 256, x % 256]

/-- A hex digit. -/
def hexDigit (n : Nat) : Char :=
  "0123456789abcdef".toList.getD n '0'

/-- A byte as two lowercase hex characters. -/
def byteHex (b : Nat) : List Char :=
  [hexDigit (b / 16 % 16), hexDigit (b % 16)]

/-- A byte list as a lowercase hex string. -/
def bytesToHex (bs : List Nat) : String :=
  String.mk (bs.foldr (fun b acc => byteHex b ++ acc) [])

/-! ### MD5 (RFC 1321) -/

/-- The MD5 sine-derived constant table `T[1..64]` (RFC 1321, written here in
decimal). -/
def md5T : List Nat :=
  [3614090360, 3905402710, 606105819, 3250441966,
   4118548399, 1200080426, 2821735955, 4249261313,
   1770035416, 2336552879, 4294925233, 2304563134,
   1804603682, 4254626195, 2792965006, 1236535329,
   4129170786, 3225465664, 643717713, 3921069994,
   3593408605, 38016083, 3634488961, 3889429448,
   568446438, 3275163606, 4107603335, 1163531501,
   2850285829, 4243563512, 1735328473, 2368359562,
   4294588738, 2272392833, 1839030562, 4259657740,
   2763975236, 1272893353, 4139469664, 3200236656,
   681279174, 3936430074, 3572445317, 76029189,
   3654602809, 3873151461, 530742520, 3299628645,
   4096336452, 1126891415, 2878612391, 4237533241,
   1700485571, 2399980690, 4293915773, 2240044497,
   1873313359, 4264355552, 2734768916, 1309151649,
   4149444226, 3174756917, 718787259, 3951481745]

/-- The MD5 per-round shift amounts. -/
def md5S : List Nat :=
  [7, 12, 17, 22, 7, 12, 17, 22, 7, 12, 17, 22, 7, 12, 17, 22,
   5, 9, 14, 20, 5, 9, 14, 20, 5, 9, 14, 20, 5, 9, 14, 20,
   4, 11, 16, 23, 4, 11, 16, 23, 4, 11, 16, 23, 4, 11, 16, 23,
   6, 10, 15, 21, 6, 10, 15, 21, 6, 10, 15, 21, 6, 10, 15, 21]

/-- The MD5 nonlinear function of round `t / 16`. -/
def md5F (t b c d : Nat) : Nat :=
  if t < 16 then (b &&& c) ||| (not32 b &&& d)
  else if t < 32 then (b &&& d) ||| (c &&& not32 d)
  else if t < 48 then b ^^^ c ^^^ d
  else c ^^^ (b ||| not32 d)

/-- The MD5 message-word index of step `t`. -/
def md5G (t : Nat) : Nat :=
  if t < 16 then t
  else if t < 32 then (5 * t + 1) % 16
  else if t < 48 then (3 * t + 5) % 16
  else (7 * t) % 16

/-- One MD5 step. -/
def md5Step (m : List Nat) (st : Nat × Nat × Nat × Nat) (t : Nat) :
    Nat × Nat × Nat × Nat :=
  let (a, b, c, d) := st
  let f := md5F t b c d
  let x := m.getD (md5G t) 0
  let a' := add32 b (rotl32 (w32 (a + f + (md5T.getD t 0) + x)) (md5S.getD t 0))
  (d, a', b, c)

/-- The MD5 compression function: absorb one 64-byte block into the four-word
chain value. -/
def md5Compress (hv : List Nat) (block : List Nat) : List Nat :=
  let m := (chunksOf 4 block).map wordLE
  let a0 := hv.getD 0 0
  let b0 := hv.getD 1 0
  let c0 := hv.getD 2 0
  let d0 := hv.getD 3 0
  let (a, b, c, d) := (List.range 64).foldl (md5Step m) (a0, b0, c0, d0)
  [add32 a0 a, add32 b0 b, add32 c0 c, add32 d0 d]

/-- The MD5 initial chain value (RFC 1321 §3.3, in decimal). -/
def md5Init : List Nat := [1732584193, 4023233417, 2562383102, 271733878]

/-! ### SHA-256 (FIPS 180-4) -/

/-- The SHA-256 round constant table `K[0..63]` (FIPS 180-4 §4.2.2, written
here in decimal). -/
def sha256K : List Nat :=
  [1116352408, 1899447441, 3049323471, 3921009573,
   961987163, 1508970993, 2453635748, 2870763221,
   3624381080, 310598401, 607225278, 1426881987,
   1925078388, 2162078206, 2614888103, 3248222580,
   3835390401, 4022224774, 264347078, 604807628,
   770255983, 1249150122, 1555081692, 1996064986,
   2554220882, 2821834349, 2952996808, 3210313671,
   3336571891, 3584528711, 113926993, 338241895,
   666307205, 773529912, 1294757372, 1396182291,
   1695183700, 1986661051, 2177026350, 2456956037,
   2730485921, 2820302411, 3259730800, 3345764771,
   3516065817, 3600352804, 4094571909, 275423344,
   430227734, 506948616, 659060556, 883997877,
   958139571, 1322822218, 1537002063, 1747873779,
   1955562222, 2024104815, 2227730452, 2361852424,
   2428436474, 2756734187, 3204031479, 3329325298]

/-- The SHA-256 initial chain value (FIPS 180-4 §5.3.3, in decimal). -/
def sha256Init : List Nat :=
  [1779033703, 3144134277, 1013904242, 2773480762,
   1359893119, 2600822924, 528734635, 1541459225]

/-- SHA-256 small sigma 0. -/
def sha256s0 (x : Nat) : Nat := (x >>> 3) ^^^ (rotr32 x 7 ^^^ rotr32 x 18)

/-- SHA-256 small sigma 1. -/
def sha256s1 (x : Nat) : Nat := (x >>> 10) ^^^ (rotr32 x 17 ^^^ rotr32 x 19)

/-- SHA-256 big sigma 0. -/
def sha256S0 (x : Nat) : Nat := rotr32 x 2 ^^^ (rotr32 x 13 ^^^ rotr32 x 22)

/-- SHA-256 big sigma 1. -/
def sha256S1 (x : Nat) : Nat := rotr32 x 6 ^^^ (rotr32 x 11 ^^^ rotr32 x 25)

/-- The SHA-256 message schedule `W[0..63]` from the 16 block words. -/
def sha256Schedule (ws : List Nat) : List Nat :=
  (List.range 64).foldl
    (fun acc t =>
      if t < 16 then acc ++ [ws.getD t 0]
      else
        acc ++ [w32 (sha256s1 (acc.getD (t - 2) 0) + acc.getD (t - 7) 0 +
                     sha256s0 (acc.getD (t - 15) 0) + acc.getD (t - 16) 0)])
    []

/-- The SHA-256 choose function. -/
def sha256Ch (e f g : Nat) : Nat := (e &&& f) ^^^ (not32 e &&& g)

/-- The SHA-256 majority function. -/
def sha256Maj (a b c : Nat) : Nat := ((a &&& b) ^^^ (a &&& c)) ^^^ (b &&& c)

/-- One SHA-256 round, consuming one `(K, W)` pair. -/
def sha256Round (st : Nat × Nat × Nat × Nat × Nat × Nat × Nat × Nat)
    (kw : Nat × Nat) : Nat × Nat × Nat × Nat × Nat × Nat × Nat × Nat :=
  let (a, b, c, d, e, f, g, h) := st
  let t1 := w32 (h + sha256S1 e + sha256Ch e f g + kw.1 + kw.2)
  let t2 := w32 (sha256S0 a + sha256Maj a b c)
  (add32 t1 t2, a, b, c, add32 d t1, e, f, g)

/-- The SHA-256 compression function: absorb one 64-byte block into the
eight-word chain value. -/
def sha256Compress (hv : List Nat) (block : List Nat) : List Nat :=
  let ws := (chunksOf 4 block).map wordBE
  let sched := sha256Schedule ws
  let h0 := hv.getD 0 0
  let h1 := hv.getD 1 0
  let h2 := hv.getD 2 0
  let h3 := hv.getD 3 0
  let h4 := hv.getD 4 0
  let h5 := hv.getD 5 0
  let h6 := hv.getD 6 0
  let h7 := hv.getD 7 0
  let (a, b, c, d, e, f, g, h) :=
    (sha256K.zip sched).foldl sha256Round (h0, h1, h2, h3, h4, h5, h6, h7)
  [add32 h0 a, add32 h1 b, add32 h2 c, add32 h3 d,
   add32 h4 e, add32 h5 f, add32 h6 g, add32 h7 h]

/-! ### Incremental accumulator and `compute_hash` -/

/-- The supported hash algorithms (spec §4.3: at least MD5 and SHA-256). -/
inductive HashAlgo where
  | md5
  | sha256
deriving DecidableEq, Repr

/-- The incremental accumulator state: chain value, pending partial block
(fewer than 64 bytes), and total bytes absorbed so far. -/
structure HashState where
  hv : List Nat
  buf : List Nat
  len : Nat
deriving DecidableEq, Repr

/-- Absorb one byte: append it to the pending block and compress when a full
64-byte block has accumulated. -/
def stepByteWith (compress : List Nat → List Nat → List Nat)
    (s : HashState) (b : Nat) : HashState :=
  let buf := s.buf ++ [b % 256]
  if buf.length = 64 then
    { hv := compress s.hv buf, buf := [], len := s.len + 1 }
  else
    { hv := s.hv, buf := buf, len := s.len + 1 }

/-- Absorb a byte sequence one byte at a time. -/
def absorb (compress : List Nat → List Nat → List Nat)
    (s : HashState) (bytes : List Nat) : HashState :=
  bytes.foldl (stepByteWith compress) s

/-- The compression function of an algorithm. -/
def HashAlgo.compress : HashAlgo → (List Nat → List Nat → List Nat)
  | .md5 => md5Compress
  | .sha256 => sha256Compress

/-- The initial accumulator state of an algorithm. -/
def HashAlgo.init : HashAlgo → HashState
  | .md5 => { hv := md5Init, buf := [], len := 0 }
  | .sha256 => { hv := sha256Init, buf := [], len := 0 }

/-- The Merkle–Damgård padding for a message of `len` bytes: `0x80`, zeros to
56 mod 64, then the bit length as eight bytes (little-endian for MD5,
big-endian for SHA-256). -/
def mdPadding (littleEndian : Bool) (len : Nat) : List Nat :=
  let zeros := (119 - len % 64) % 64
  let bits := len * 8
  let lenBytes :=
    if littleEndian then
      (List.range 8).map fun i => bits / 2 ^ (8 * i) % 256
    else
      (List.range 8).map fun i => bits / 2 ^ (8 * (7 - i)) % 256
  0x80 :: List.replicate zeros 0 ++ lenBytes

/-- Finalize: absorb the padding, then render the chain value as lowercase
hex (word bytes little-endian for MD5, big-endian for SHA-256). -/
def HashAlgo.finalize : HashAlgo → HashState → String
  | .md5, s =>
      let s' := absorb md5Compress s (mdPadding true s.len)
      bytesToHex (s'.hv.foldr (fun x acc => bytesLE x ++ acc) [])
  | .sha256, s =>
      let s' := absorb sha256Compress s (mdPadding false s.len)
      bytesToHex (s'.hv.foldr (fun x acc => bytesBE x ++ acc) [])

/-- Modelled from the spec: `compute_hash` (`flasher.rs` is missing from the
source tree), spec §4.3 — stream the content in fixed-size chunks of
`chunkSize` bytes through the incremental accumulator of the chosen algorithm,
then finalize to a hex digest.  The chunk decomposition `chunksOf chunkSize`
does not depend on the algorithm. -/
def compute_hash (algo : HashAlgo) (chunkSize : Nat) (content : List Nat) :
    String :=
  algo.finalize
    ((chunksOf chunkSize content).foldl (absorb algo.compress) algo.init)

/-! ## Lemmas about chunking and absorption -/

theorem join_chunksOf (n : Nat) (hn : 0 < n) (l : List Nat) :
    (chunksOf n l).flatten = l := by
  generalize hk : l.length = k
  induction k using Nat.strong_induction_on generalizing l with
  | _ k ih =>
    subst hk
    rw [chunksOf]
    split
    · rename_i h
      rcases h with h | h
      · omega
      · subst h; simp
    · rename_i h
      push_neg at h
      have hlt : (l.drop n).length < l.length := by
        have := List.length_pos.mpr h.2
        simp [List.length_drop]
        omega
      have hrec := ih (l.drop n).length hlt (l.drop n) rfl
      simp [hrec]

theorem foldl_absorb_join (compress : List Nat → List Nat → List Nat)
    (s : HashState) (L : List (List Nat)) :
    L.foldl (absorb compress) s = absorb compress s L.flatten := by
  induction L generalizing s with
  | nil => simp [absorb]
  | cons c rest ih => simp [absorb, ih, List.foldl_append]

/-- `compute_hash` with any positive chunk size equals a single absorption of
the whole content. -/
theorem compute_hash_eq_absorb (algo : HashAlgo) (n : Nat) (hn : 0 < n)
    (content : List Nat) :
    compute_hash algo n content
      = algo.finalize (absorb algo.compress algo.init content) := by
  rw [compute_hash, foldl_absorb_join, join_chunksOf n hn]

/-! ## Lemmas about verification -/

theorem firstMismatch_eq_none_iff (as bs : List Nat) :
    firstMismatch as bs = none ↔ bs.take as.length = as := by
  induction as generalizing bs with
  | nil => simp [firstMismatch]
  | cons a as ih =>
    cases bs with
    | nil => simp [firstMismatch]
    | cons b bs =>
      by_cases hab : a = b
      · subst hab
        simp only [firstMismatch, if_pos rfl, if_true, Option.map_eq_none',
          List.length_cons, List.take_succ_cons, List.cons.injEq, true_and]
        exact ih bs
      · simp only [firstMismatch, if_neg hab, List.length_cons,
          List.take_succ_cons]
        apply iff_of_false
        · simp
        · intro h
          injection h with h1 _
          exact hab h1.symm

theorem firstMismatch_eq_some (as bs : List Nat) (k : Nat)
    (h : firstMismatch as bs = some k) :
    k < as.length ∧ as[k]? ≠ bs[k]? ∧ ∀ j < k, as[j]? = bs[j]? := by
  induction as generalizing bs k with
  | nil => simp [firstMismatch] at h
  | cons a as ih =>
    cases bs with
    | nil =>
      simp only [firstMismatch] at h
      injection h with h
      subst h
      refine ⟨by simp, by simp, by omega⟩
    | cons b bs =>
      by_cases hab : a = b
      · subst hab
        simp only [firstMismatch, if_pos rfl] at h
        rcases Option.map_eq_some'.mp h with ⟨k', hk', rfl⟩
        obtain ⟨h1, h2, h3⟩ := ih bs k' hk'
        refine ⟨by simp; omega, by simpa using h2, ?_⟩
        intro j hj
        cases j with
        | zero => simp
        | succ j =>
          simpa using h3 j (by omega)
      · simp only [firstMismatch, if_neg hab] at h
        injection h with h
        subst h
        refine ⟨by simp, by simpa using hab, by omega⟩

theorem verifyBytes_match_iff (image dev : List Nat) :
    verifyBytes image dev = .Match ↔ dev.take image.length = image := by
  rw [verifyBytes]
  rcases h : firstMismatch image (dev.take image.length) with _ | k
  · simp only [true_iff]
    have := (firstMismatch_eq_none_iff image (dev.take image.length)).mp h
    rwa [List.take_take, Nat.min_self] at this
  · simp only [reduceCtorEq, false_iff]
    intro hc
    rw [(firstMismatch_eq_none_iff image (dev.take image.length)).mpr
      (by rwa [List.take_take, Nat.min_self])] at h
    cases h

theorem verifyBytes_mismatch (image dev : List Nat) (k : Nat)
    (h : verifyBytes image dev = .MismatchAt k) :
    k < image.length ∧ image[k]? ≠ dev[k]? ∧ ∀ j < k, image[j]? = dev[j]? := by
  rw [verifyBytes] at h
  rcases hf : firstMismatch image (dev.take image.length) with _ | k'
  · rw [hf] at h; cases h
  · rw [hf] at h
    injection h with h
    subst h
    obtain ⟨h1, h2, h3⟩ := firstMismatch_eq_some _ _ _ hf
    refine ⟨h1, ?_, ?_⟩
    · rwa [List.getElem?_take_of_lt h1] at h2
    · intro j hj
      have := h3 j hj
      rwa [List.getElem?_take_of_lt (by omega)] at this

/-! ## Lemmas about the write loop -/

/-- Writing the next `n`-byte chunk of `image` at the write frontier advances
the "image prefix written, original contents beyond" shape of the device. -/
theorem writeAt_chunk (image dev0 : List Nat) (w n : Nat)
    (hw : w ≤ image.length) (hcap : image.length ≤ dev0.length) :
    writeAt (image.take w ++ dev0.drop w) w ((image.drop w).take n)
      = image.take (w + ((image.drop w).take n).length)
        ++ dev0.drop (w + ((image.drop w).take n).length) := by
  set c := (image.drop w).take n with hc
  have hlen : (image.take w).length = w := by
    simp [List.length_take]
    omega
  rw [writeAt]
  have h1 : (image.take w ++ dev0.drop w).take w = image.take w := by
    rw [List.take_append_of_le_length (by omega), List.take_take,
      Nat.min_self]
  have h2 : (image.take w ++ dev0.drop w).drop (w + c.length)
      = dev0.drop (w + c.length) := by
    have he : w + c.length = (image.take w).length + c.length := by rw [hlen]
    rw [he, List.drop_append, List.drop_drop, hlen]
  have hclen : c.length = min n (image.length - w) := by
    rw [hc]
    simp [List.length_take, List.length_drop]
  have h3 : image.take w ++ c = image.take (w + c.length) := by
    rw [List.take_add]
    congr 1
    rw [List.take_eq_take]
    simp [List.length_take, List.length_drop]
    omega
  rw [h1, h2, h3]

/-- The postcondition of `writeLoop` relative to the image and the device's
prior contents: the device holds exactly the written image prefix and is
untouched beyond it; a cancelled exit lands on a whole-chunk boundary with
bytes remaining; a non-cancelled exit wrote the whole image. -/
def WriteOut (image dev0 : List Nat) (n : Nat) (r : Bool × Nat × List Nat) :
    Prop :=
  r.2.2 = image.take r.2.1 ++ dev0.drop r.2.1
  ∧ r.2.1 ≤ image.length
  ∧ (r.1 = true → n ∣ r.2.1 ∧ r.2.1 < image.length)
  ∧ (r.1 = false → r.2.1 = image.length)

theorem writeLoop_main (n : Nat) (cancel : Nat → Bool) (image dev0 : List Nat)
    (hn : 0 < n) (hcap : image.length ≤ dev0.length) :
    ∀ fuel written i, image.length - written ≤ fuel →
      (n ∣ written ∨ written = image.length) → written ≤ image.length →
      WriteOut image dev0 n
        (writeLoop fuel n cancel image
          (image.take written ++ dev0.drop written) written i) := by
  intro fuel
  induction fuel with
  | zero =>
    intro written i hk hdvd hwle
    have hw : written = image.length := by omega
    exact ⟨rfl, hwle, by simp [writeLoop], fun _ => hw⟩
  | succ fuel ih =>
    intro written i hk hdvd hwle
    rw [writeLoop]
    split
    · rename_i h
      have hw : written = image.length := by
        rcases h with h | h
        · omega
        · omega
      exact ⟨rfl, hwle, by simp, fun _ => hw⟩
    · rename_i h
      push_neg at h
      have hlt : written < image.length := h.2
      have hdl : n ∣ written := by
        rcases hdvd with hd | hd
        · exact hd
        · omega
      set c := (image.drop written).take n with hc
      have hclen : c.length = min n (image.length - written) := by
        simp [hc, List.length_take, List.length_drop]
      have hcpos : 0 < c.length := by
        have h1 : 0 < n := Nat.pos_of_ne_zero h.1
        omega
      have hwle' : written + c.length ≤ image.length := by omega
      have hstep := writeAt_chunk image dev0 written n hwle hcap
      split
      · rename_i hcan
        refine ⟨hstep, hwle', fun _ => ⟨?_, hcan.1⟩, by simp⟩
        have hcl : c.length = n := by omega
        rw [hcl]
        exact Nat.dvd_add hdl (dvd_refl n)
      · rename_i hcan
        rw [hstep]
        have hdvd' : n ∣ written + c.length
            ∨ written + c.length = image.length := by
          by_cases hfin : written + c.length < image.length
          · left
            have hcl : c.length = n := by omega
            rw [hcl]
            exact Nat.dvd_add hdl (dvd_refl n)
          · right
            omega
        exact ih (written + c.length) (i + 1) (by omega) hdvd' hwle'

/-- `writeLoop` as `flashRun` invokes it: full fuel, offset 0, the raw device
contents. -/
theorem writeLoop_from_start (n : Nat) (cancel : Nat → Bool)
    (image dev0 : List Nat) (hn : 0 < n) (hcap : image.length ≤ dev0.length) :
    WriteOut image dev0 n (writeLoop image.length n cancel image dev0 0 0) := by
  have h0 : dev0 = image.take 0 ++ dev0.drop 0 := by simp
  have := writeLoop_main n cancel image dev0 hn hcap image.length 0 0
    (by omega) (Or.inl (dvd_zero n)) (Nat.zero_le _)
  rwa [← h0] at this

theorem flashRun_of_cancel (inp : FlashInput) (written : Nat) (dev : List Nat)
    (hp : (inp.present && deviceSafe inp.device) = true)
    (hr : writeLoop inp.image.length inp.chunkSize inp.cancel inp.image
      inp.dev0 0 0 = (true, written, dev)) :
    flashRun inp
      = { state := .Cancelled, bytes_written := written, dev := dev } := by
  simp [flashRun, hp, hr]

theorem flashRun_of_complete (inp : FlashInput) (written : Nat)
    (dev : List Nat) (hp : (inp.present && deviceSafe inp.device) = true)
    (hr : writeLoop inp.image.length inp.chunkSize inp.cancel inp.image
      inp.dev0 0 0 = (false, written, dev)) :
    flashRun inp
      = if inp.verify then
          match verifyBytes inp.image dev with
          | .Match => { state := .Done, bytes_written := written, dev := dev }
          | .MismatchAt k =>
              { state := .Error ("verification mismatch at offset " ++ toString k),
                bytes_written := written, dev := dev }
        else { state := .Done, bytes_written := written, dev := dev } := by
  simp [flashRun, hp, hr]

/-- A device passes the safety filter iff it is removable and not a system
disk. -/
theorem deviceSafe_iff (d : Device) :
    deviceSafe d = true ↔ d.is_removable = true ∧ d.is_system = false := by
  rw [deviceSafe]
  cases hr : d.is_removable <;> cases hs : d.is_system <;> simp

/-! ## Concrete fixtures used by the witnesses -/

/-- An internal system disk fixture. -/
def sysDisk : Device :=
  { identifier := "/dev/disk0", display_name := "Internal SSD",
    capacity_bytes := 500107862016, is_removable := false, is_system := true }

/-- A removable USB drive fixture. -/
def usbDisk : Device :=
  { identifier := "/dev/disk2", display_name := "USB Stick",
    capacity_bytes := 15728640, is_removable := true, is_system := false }

/-- A flash run against a device that fails the safety re-check. -/
def badFlashInput : FlashInput :=
  { image := [1, 2, 3], chunkSize := 1, verify := false, device := sysDisk,
    present := true, dev0 := [0, 0, 0, 0], cancel := fun _ => false }

/-- A flash run cancelled at the first chunk boundary: 4 image bytes, chunk
size 2, the flag set when first polled. -/
def cancelFlashInput : FlashInput :=
  { image := [1, 2, 3, 4], chunkSize := 2, verify := false, device := usbDisk,
    present := true, dev0 := [9, 9, 9, 9, 9, 9, 9, 9],
    cancel := fun i => i == 0 }

/-- The initial frontend state (selections empty, Next buttons disabled, the
step-1 panel visible). -/
def uiInit : UIState :=
  { selectedImage := none, selectedDrive := none, verifyChecked := true,
    btnNext1Disabled := true, btnNext2Disabled := true,
    imageNameText := "", imageSizeText := "", imageFormatText := "",
    imageInfoVisible := false, hashResultText := "", driveListHtml := "",
    warningBoxVisible := false, flashButtonsVisible := true,
    cancelBtnVisible := false, progressVisible := false,
    doneMessageVisible := false, progressPercentText := "",
    progressPhaseText := "", progressSpeedText := "", progressEtaText := "" }

/-- A progress payload in the writing phase. -/
def writingPayload : ProgressPayload :=
  { phase := "writing", bytes_done := 3145728, bytes_total := 10485760,
    percent := 30, speed_mbps := 12, eta_seconds := 75,
    message := "Writing image..." }

/-! ## The claims -/

/-- C1: every device returned by `list_devices` has `is_system = false` and
`is_removable = true`; for every possible raw enumeration a device failing the
filter is excluded (`list_devices` takes no flag, override or configuration
input that could re-include it); and the filter is re-confirmed when flashing
begins — a run whose device is absent from a fresh enumeration or fails the
filter ends in `Error "DeviceNoLongerValid"` with zero bytes written and the
device contents untouched. -/
theorem list_devices_safety_invariant :
    (∀ (raw : List Device) (d : Device), d ∈ list_devices raw →
        d.is_system = false ∧ d.is_removable = true)
    ∧ (∀ (raw : List Device) (d : Device),
        d.is_system = true ∨ d.is_removable = false → d ∉ list_devices raw)
    ∧ (∀ inp : FlashInput,
        inp.present = false ∨ deviceSafe inp.device = false →
        flashRun inp = { state := .Error "DeviceNoLongerValid",
                         bytes_written := 0, dev := inp.dev0 }) := by
  refine ⟨?_, ?_, ?_⟩
  · intro raw d hd
    rw [list_devices, List.mem_filter] at hd
    have h := (deviceSafe_iff d).mp hd.2
    exact ⟨h.2, h.1⟩
  · intro raw d hbad hd
    rw [list_devices, List.mem_filter] at hd
    have h := (deviceSafe_iff d).mp hd.2
    rcases hbad with hb | hb
    · rw [h.2] at hb
      cases hb
    · rw [h.1] at hb
      cases hb
  · intro inp hbad
    have hp : (inp.present && deviceSafe inp.device) = false := by
      rcases hbad with hb | hb <;> simp [hb]
    simp [flashRun, hp]

theorem list_devices_safety_invariant_witness :
    sysDisk ∉ list_devices [sysDisk, usbDisk]
    ∧ usbDisk.is_system = false ∧ usbDisk.is_removable = true
    ∧ flashRun badFlashInput
        = { state := .Error "DeviceNoLongerValid", bytes_written := 0,
            dev := badFlashInput.dev0 } :=
  ⟨list_devices_safety_invariant.2.1 [sysDisk, usbDisk] sysDisk (Or.inl rfl),
   (list_devices_safety_invariant.1 [sysDisk, usbDisk] usbDisk (by decide)).1,
   (list_devices_safety_invariant.1 [sysDisk, usbDisk] usbDisk (by decide)).2,
   list_devices_safety_invariant.2.2 badFlashInput (Or.inr (by decide))⟩

/-- C2: when a flash run ends `Cancelled`, cancellation took effect at a chunk
boundary: `bytes_written` is an exact multiple of the chunk size and strictly
below the image size, and the device holds exactly the written whole chunks
(the image prefix of length `bytes_written`) with its remaining contents
untouched — no partial-chunk write is left dangling. -/
theorem flash_cancel_chunk_atomic (inp : FlashInput)
    (hn : 0 < inp.chunkSize) (hcap : inp.image.length ≤ inp.dev0.length)
    (hc : (flashRun inp).state = .Cancelled) :
    inp.chunkSize ∣ (flashRun inp).bytes_written
    ∧ (flashRun inp).bytes_written < inp.image.length
    ∧ (flashRun inp).dev
        = inp.image.take ((flashRun inp).bytes_written)
          ++ inp.dev0.drop ((flashRun inp).bytes_written) := by
  by_cases hp : (inp.present && deviceSafe inp.device) = true
  · rcases hr : writeLoop inp.image.length inp.chunkSize inp.cancel inp.image
        inp.dev0 0 0 with ⟨b, written, dv⟩
    have hw := writeLoop_from_start inp.chunkSize inp.cancel inp.image
      inp.dev0 hn hcap
    rw [hr] at hw
    unfold WriteOut at hw
    obtain ⟨hdev, hle, hcanc, hcomp⟩ := hw
    cases b
    · exfalso
      have heq := flashRun_of_complete inp written dv hp hr
      rw [heq] at hc
      by_cases hv : inp.verify
      · rw [if_pos hv] at hc
        rcases hm : verifyBytes inp.image dv with _ | k <;>
          rw [hm] at hc <;> simp at hc
      · rw [if_neg hv] at hc
        simp at hc
    · have heq := flashRun_of_cancel inp written dv hp hr
      rw [heq]
      obtain ⟨hd1, hd2⟩ := hcanc rfl
      exact ⟨hd1, hd2, hdev⟩
  · exfalso
    have hp' : (inp.present && deviceSafe inp.device) = false := by
      cases h : (inp.present && deviceSafe inp.device)
      · rfl
      · exact absurd h hp
    simp [flashRun, hp'] at hc

theorem flash_cancel_chunk_atomic_witness :
    2 ∣ (flashRun cancelFlashInput).bytes_written
    ∧ (flashRun cancelFlashInput).bytes_written < 4 :=
  have h := flash_cancel_chunk_atomic cancelFlashInput (by decide) (by decide)
    (by decide)
  ⟨h.1, h.2.1⟩

/-- C3: `verifyBytes` compares exactly the first `image.length` device bytes
against the image: it returns `Match` iff that prefix equals the image;
`MismatchAt k` identifies the first differing offset (all earlier offsets
agree); and in a flash run with `verify = true` that was not cancelled, the
job ends `Done` exactly when the verification matches. -/
theorem verify_exact_compare (image dv : List Nat) :
    (verifyBytes image dv = .Match ↔ dv.take image.length = image)
    ∧ (∀ k, verifyBytes image dv = .MismatchAt k →
        k < image.length ∧ image[k]? ≠ dv[k]? ∧ ∀ j < k, image[j]? = dv[j]?)
    ∧ (∀ inp : FlashInput, inp.verify = true →
        (inp.present && deviceSafe inp.device) = true →
        (flashRun inp).state ≠ .Cancelled →
        ((flashRun inp).state = .Done ↔
          verifyBytes inp.image ((flashRun inp).dev) = .Match)) := by
  refine ⟨verifyBytes_match_iff image dv, ?_, ?_⟩
  · intro k hk
    exact verifyBytes_mismatch image dv k hk
  · intro inp hv hp hnc
    rcases hr : writeLoop inp.image.length inp.chunkSize inp.cancel inp.image
        inp.dev0 0 0 with ⟨b, written, dv'⟩
    cases b
    · have heq := flashRun_of_complete inp written dv' hp hr
      rw [heq, if_pos hv]
      rcases hm : verifyBytes inp.image dv' with _ | k <;> simp [hm]
    · exfalso
      have heq := flashRun_of_cancel inp written dv' hp hr
      rw [heq] at hnc
      exact hnc rfl

theorem verify_exact_compare_witness :
    verifyBytes [5, 6] [5, 6, 9] = .Match
    ∧ (1 < 2 ∧ [1, 2][1]? ≠ [1, 3, 7][1]?
        ∧ ∀ j < 1, [1, 2][j]? = [1, 3, 7][j]?) :=
  ⟨(verify_exact_compare [5, 6] [5, 6, 9]).1.mpr (by decide),
   (verify_exact_compare [1, 2] [1, 3, 7]).2.1 1 (by decide)⟩

/-- C4: at most one flash job may be active per device: a `start_flash`
against a device that already has a job in `Writing` returns an error and
creates nothing, while two devices that are both free can be started one
after the other, leaving both jobs active concurrently. -/
theorem start_flash_single_job :
    (∀ (e : Engine) (d : String),
        (∃ j ∈ e.jobs, j.deviceId = d ∧ j.state = .Writing) →
        start_flash e d
          = .error "a flash job is already active for this device")
    ∧ (∀ (e : Engine) (d d' : String), d ≠ d' →
        deviceBusy e d = false → deviceBusy e d' = false →
        ∃ e1 id1 e2 id2,
          start_flash e d = .ok (e1, id1)
          ∧ start_flash e1 d' = .ok (e2, id2)
          ∧ (∃ j ∈ e2.jobs, j.deviceId = d ∧ j.state.isActive = true)
          ∧ (∃ j ∈ e2.jobs, j.deviceId = d' ∧ j.state.isActive = true)) := by
  constructor
  · rintro e d ⟨j, hj, hjd, hjs⟩
    have hb : deviceBusy e d = true := by
      rw [deviceBusy, List.any_eq_true]
      exact ⟨j, hj, by simp [hjd, hjs, FlashState.isActive]⟩
    simp [start_flash, hb]
  · intro e d d' hne hb hb'
    have h1 : start_flash e d
        = .ok ({ jobs := { jobId := e.nextId, deviceId := d,
                           state := .Preparing } :: e.jobs,
                 nextId := e.nextId + 1 }, e.nextId) := by
      simp [start_flash, hb]
    have hb1 : deviceBusy
        ({ jobs := { jobId := e.nextId, deviceId := d,
                     state := .Preparing } :: e.jobs,
           nextId := e.nextId + 1 } : Engine) d' = false := by
      rw [deviceBusy] at hb' ⊢
      simp only [List.any_cons, Bool.or_eq_false_iff]
      refine ⟨?_, hb'⟩
      simp [decide_eq_false hne]
    have h2 : start_flash
        ({ jobs := { jobId := e.nextId, deviceId := d,
                     state := .Preparing } :: e.jobs,
           nextId := e.nextId + 1 } : Engine) d'
        = .ok ({ jobs := { jobId := e.nextId + 1, deviceId := d',
                           state := .Preparing }
                   :: { jobId := e.nextId, deviceId := d,
                        state := .Preparing } :: e.jobs,
                 nextId := e.nextId + 2 }, e.nextId + 1) := by
      simp [start_flash, hb1]
    refine ⟨_, _, _, _, h1, h2, ?_, ?_⟩
    · exact ⟨{ jobId := e.nextId, deviceId := d, state := .Preparing },
        List.mem_cons_of_mem _ (List.mem_cons_self _ _), rfl, rfl⟩
    · exact ⟨{ jobId := e.nextId + 1, deviceId := d', state := .Preparing },
        List.mem_cons_self _ _, rfl, rfl⟩

/-- An engine with one job writing to the USB stick. -/
def busyEngine : Engine :=
  { jobs := [{ jobId := 0, deviceId := "/dev/disk2", state := .Writing }],
    nextId := 1 }

/-- An engine with no jobs. -/
def emptyEngine : Engine := { jobs := [], nextId := 0 }

theorem start_flash_single_job_witness :
    start_flash busyEngine "/dev/disk2"
      = .error "a flash job is already active for this device"
    ∧ ∃ e1 id1 e2 id2,
        start_flash emptyEngine "/dev/disk2" = .ok (e1, id1)
        ∧ start_flash e1 "/dev/disk3" = .ok (e2, id2)
        ∧ (∃ j ∈ e2.jobs, j.deviceId = "/dev/disk2"
            ∧ j.state.isActive = true)
        ∧ (∃ j ∈ e2.jobs, j.deviceId = "/dev/disk3"
            ∧ j.state.isActive = true) :=
  ⟨start_flash_single_job.1 busyEngine "/dev/disk2"
      ⟨{ jobId := 0, deviceId := "/dev/disk2", state := .Writing },
        List.mem_cons_self _ _, rfl, rfl⟩,
   start_flash_single_job.2 emptyEngine "/dev/disk2" "/dev/disk3"
      (by decide) rfl rfl⟩

/-- C5: `compute_hash` is deterministic and chunk-size independent for every
supported algorithm (MD5 and SHA-256): any two positive internal chunk sizes
(64 KiB vs 4 MiB included) yield the identical hex digest, equal to one
absorption of the whole content — and the chunk decomposition
(`chunksOf chunkSize content`) carries no dependence on the algorithm. -/
theorem compute_hash_deterministic (algo : HashAlgo) (content : List Nat)
    (c1 c2 : Nat) (h1 : 0 < c1) (h2 : 0 < c2) :
    compute_hash algo c1 content = compute_hash algo c2 content
    ∧ compute_hash algo c1 content
        = algo.finalize (absorb algo.compress algo.init content) := by
  refine ⟨?_, compute_hash_eq_absorb algo c1 h1 content⟩
  rw [compute_hash_eq_absorb algo c1 h1 content,
    compute_hash_eq_absorb algo c2 h2 content]

theorem compute_hash_deterministic_witness :
    compute_hash .md5 65536 [10, 20, 30]
      = compute_hash .md5 4194304 [10, 20, 30]
    ∧ compute_hash .sha256 65536 [10, 20, 30]
        = compute_hash .sha256 4194304 [10, 20, 30] :=
  ⟨(compute_hash_deterministic .md5 [10, 20, 30] 65536 4194304
      (by decide) (by decide)).1,
   (compute_hash_deterministic .sha256 [10, 20, 30] 65536 4194304
      (by decide) (by decide)).1⟩

/-- C6 as stated does not hold of the code: the progress payload the frontend
consumes has no `speed_bytes_per_sec` field — its speed field is `speed_mbps`
(read at `app.js` line 167). -/
theorem progress_event_no_speed_bytes_field :
    "speed_bytes_per_sec" ∉ progressPayloadFields := by decide

/-- C6 (amended): every progress payload carries `phase`, `bytes_done`,
`bytes_total`, `percent`, `speed_mbps` (megabytes per second — in place of the
claimed `speed_bytes_per_sec`), `eta_seconds` and `message`; on events whose
phase is `writing` or `verifying` the handler populates the speed label from
`speed_mbps` and, when `eta_seconds` is positive, the ETA label from
`eta_seconds`. -/
theorem progress_event_fields :
    progressPayloadFields
      = ["phase", "bytes_done", "bytes_total", "percent", "speed_mbps",
         "eta_seconds", "message"]
    ∧ (∀ (s : UIState) (p : ProgressPayload),
        p.phase = "writing" ∨ p.phase = "verifying" →
        (flashProgressHandler s p).1.progressSpeedText
          = speedText p.speed_mbps
        ∧ (0 < p.eta_seconds →
            (flashProgressHandler s p).1.progressEtaText
              = etaText p.eta_seconds)) := by
  refine ⟨rfl, ?_⟩
  intro s p hp
  have hd : ¬(p.phase = "done") := by
    rcases hp with h | h <;> rw [h] <;> decide
  have he : ¬(p.phase = "error") := by
    rcases hp with h | h <;> rw [h] <;> decide
  by_cases h0 : 0 < p.eta_seconds
  · exact ⟨by simp [flashProgressHandler, hp, hd, he, h0],
      fun _ => by simp [flashProgressHandler, hp, hd, he, h0]⟩
  · exact ⟨by simp [flashProgressHandler, hp, hd, he, h0],
      fun h0' => absurd h0' h0⟩

theorem progress_event_fields_witness :
    (flashProgressHandler uiInit writingPayload).1.progressSpeedText
      = speedText writingPayload.speed_mbps
    ∧ (flashProgressHandler uiInit writingPayload).1.progressEtaText
        = etaText writingPayload.eta_seconds :=
  have h := progress_event_fields.2 uiInit writingPayload (Or.inl rfl)
  ⟨h.1, h.2 (by decide)⟩

/-- C7 as stated does not hold of the code: `cancelFlash` invokes the backend
`cancel_flash` command with an empty argument list — no job id is passed
(`app.js` line 150). -/
theorem cancel_no_job_id : cancelFlashInvoke.args = [] := rfl

/-- C7 (amended): cancellation is a global, argument-free request: the
frontend's cancel call is the `cancel_flash` command with no arguments,
identifying no particular job. -/
theorem cancel_global_request :
    cancelFlashInvoke.cmd = "cancel_flash" ∧ cancelFlashInvoke.args = [] :=
  ⟨rfl, rfl⟩

/-- C8: when enumeration fails the modelled backend returns an empty sequence
plus a descriptive error, and the frontend's `refreshDrives` on the error path
clears any previously selected drive, disables the Next button, hides the
warning box and shows the error text in place of the drive list — no
previously cached drive list or selection survives, whatever state preceded
the call. -/
theorem enumeration_failure_no_stale (s : UIState) (e : String) :
    (list_drives none).1 = []
    ∧ (list_drives none).2
        = some "device enumeration failed: permission error or tooling unavailable"
    ∧ (refreshDrives s (.error e)).selectedDrive = none
    ∧ (refreshDrives s (.error e)).btnNext2Disabled = true
    ∧ (refreshDrives s (.error e)).warningBoxVisible = false
    ∧ (refreshDrives s (.error e)).driveListHtml = "Error: " ++ e :=
  ⟨rfl, rfl, rfl, rfl, rfl, rfl⟩

/-- C9: with no image or no drive selected, `startFlash` issues no backend
call and leaves the state unchanged; with the confirm dialog declined it
likewise does nothing; and any invocation it does issue is the `flash_image`
command, only possible with both selections present and the dialog
confirmed. -/
theorem start_flash_guarded (s : UIState) (confirmOk : Bool) :
    ((s.selectedImage = none ∨ s.selectedDrive = none) →
      startFlash s confirmOk = (s, []))
    ∧ (confirmOk = false → startFlash s confirmOk = (s, []))
    ∧ (∀ call ∈ (startFlash s confirmOk).2,
        call.cmd = "flash_image" ∧ confirmOk = true
        ∧ s.selectedImage ≠ none ∧ s.selectedDrive ≠ none) := by
  rcases hsi : s.selectedImage with _ | img
  · refine ⟨fun _ => ?_, fun _ => ?_, ?_⟩ <;> simp [startFlash, hsi]
  · rcases hsd : s.selectedDrive with _ | drv
    · refine ⟨fun _ => ?_, fun _ => ?_, ?_⟩ <;> simp [startFlash, hsi, hsd]
    · cases confirmOk
      · refine ⟨fun _ => ?_, fun _ => ?_, ?_⟩ <;> simp [startFlash, hsi, hsd]
      · refine ⟨fun h => ?_, fun h => ?_, ?_⟩
        · rcases h with h | h <;> simp at h
        · cases h
        · intro call hcall
          simp only [startFlash, hsi, hsd, if_true, List.mem_singleton]
            at hcall
          subst hcall
          exact ⟨rfl, rfl, by simp [hsi], by simp [hsd]⟩

theorem start_flash_guarded_witness : startFlash uiInit true = (uiInit, []) :=
  (start_flash_guarded uiInit true).1 (Or.inl rfl)

/-- C10: a failed `select_image` call leaves the frontend state entirely
unchanged — in particular `selectedImage` and the Next button keep their
previous values — and only raises an error alert. -/
theorem load_image_error_unchanged (s : UIState) (e : String) :
    (loadImage s (.error e)).1 = s
    ∧ (loadImage s (.error e)).1.selectedImage = s.selectedImage
    ∧ (loadImage s (.error e)).1.btnNext1Disabled = s.btnNext1Disabled
    ∧ (loadImage s (.error e)).2 = ["Error: " ++ e] :=
  ⟨rfl, rfl, rfl, rfl⟩

end CoreFlasher
